import Mathlib

/-!
# GrClip.h: the clip stack, its elements and the clip data

A shallow embedding of `src/gpu/GrClip.h`.

* `GrRect` (an `SkRect`), `SkPath` and `GrPathFill` are declared in headers that
  `GrClip.h` only includes.  The code of `GrClip.h` uses nothing of them but
  `operator==`, so they are the type parameters `R`, `P` and `F`, with the
  rectangle and path comparison supplied as `BEq R` and `BEq P`.
* `GrAssert` and the bounds check of `SkTArray::operator[]` stop the program
  with `Fault.assertion`; `GrCrash` stops it with `Fault.crash`.  A member
  function that can stop this way returns `Except Fault _`.
* A `const GrClip*` is an `Option`: `none` is `NULL`.
-/

/-- Modelled from the spec: the enum `GrClipType` is declared in
GrClipIterator.h, which is not part of the sources.  Spec 3: the kind of an
element is Rectangle or Path.  GrClip.h names the two enumerators
`kRect_ClipType` and `kPath_ClipType` and has a `default:` branch for every
other value the field may hold (spec 4.1: an unrecognized element kind);
`unrecognised raw` is such a value. -/
inductive GrClipType where
  | kRect_ClipType
  | kPath_ClipType
  | unrecognised (raw : Nat)
  deriving DecidableEq, Repr

namespace SkRegion

/-- Modelled from the spec: the enum `SkRegion::Op` is declared in SkRegion.h,
which is not part of the sources.  Spec 3: one of Intersect, Union,
ReverseDifference, Difference, Xor, Replace. -/
inductive Op where
  | kDifference_Op
  | kIntersect_Op
  | kUnion_Op
  | kXOR_Op
  | kReverseDifference_Op
  | kReplace_Op
  deriving DecidableEq, Repr

end SkRegion

/-- Modelled from the spec: how a call can stop without returning.  Spec 7: a
contract violation is fatal, by a failed assertion (`GrAssert`, array bounds) or
by the crash on an unreachable variant (`GrCrash`). -/
inductive Fault where
  | assertion
  | crash
  deriving DecidableEq, Repr

/-- Modelled from the spec: the macro `GrAssert` is defined in GrConfig.h, which
is not part of the sources.  Spec 4.1 and 7: a precondition that is not met
fails with a contract-violation error. -/
def GrAssert (cond : Bool) : Except Fault Unit :=
  if cond then .ok () else .error .assertion

/-- Modelled from the spec: the struct `SkIPoint` is declared in SkPoint.h,
which is not part of the sources.  Spec 3: an integer 2D translation. -/
structure SkIPoint where
  fX : Int
  fY : Int
  deriving DecidableEq, Repr

/-- Modelled from the spec: `operator!=` of `SkIPoint` (SkPoint.h, not part of
the sources), which `GrClipData::operator==` calls.  Spec 3: origins are equal
or not, coordinate by coordinate. -/
def SkIPoint.opNe (a b : SkIPoint) : Bool :=
  a.fX != b.fX || a.fY != b.fY

/-- The struct `GrClip::Element` (GrClip.h 171-177). -/
structure GrClip.Element (R P F : Type) where
  fType : GrClipType
  fRect : R
  fPath : P
  fPathFill : F
  fOp : SkRegion.Op
  fDoAA : Bool

/-- The data members of `GrClip` (GrClip.h 195-203); `fList` is the `SkSTArray`
of elements, bottom of the stack first. -/
structure GrClip (R P F : Type) where
  fConservativeBounds : R
  fConservativeBoundsValid : Bool
  fRequiresAA : Bool
  fList : List (GrClip.Element R P F)

namespace GrClip

variable {R P F : Type}

namespace Element

/-- The member `Element::operator==` (GrClip.h 178-191); `self` is `*this`. -/
def opEq [BEq R] [BEq P] (self e : Element R P F) : Except Fault Bool :=
  if e.fType != self.fType || e.fOp != self.fOp || e.fDoAA != self.fDoAA then
    .ok false
  else
    match self.fType with
    | .kRect_ClipType => .ok (self.fRect == e.fRect)
    | .kPath_ClipType => .ok (self.fPath == e.fPath)
    | .unrecognised _ => .error .crash

/-- The member `Element::operator!=` (GrClip.h 192): `!(*this == e)`. -/
def opNe [BEq R] [BEq P] (self e : Element R P F) : Except Fault Bool :=
  match self.opEq e with
  | .ok r => .ok (!r)
  | .error f => .error f

end Element

/-- Modelled from the spec: the expression `fList[i]`, whose
`SkTArray::operator[]` is declared in SkTArray.h, not part of the sources.
Spec 3: `elements` is an ordered sequence; an index outside it is a contract
violation (spec 7). -/
def elementAt (l : List (Element R P F)) (i : Nat) : Except Fault (Element R P F) :=
  match l[i]? with
  | some e => .ok e
  | none => .error .assertion

/-- Member `getElementCount` (GrClip.h 103). -/
def getElementCount (self : GrClip R P F) : Nat :=
  self.fList.length

/-- The loop of `operator==` (GrClip.h 159-164), entered at index `i` with
`todo = count - i` iterations left before `i < count` fails. -/
def opEqLoop [BEq R] [BEq P] (a b : GrClip R P F) : (todo : Nat) → (i : Nat) → Except Fault Bool
  | 0, _ => .ok true
  | todo + 1, i =>
    match elementAt a.fList i with
    | .error f => .error f
    | .ok x =>
      match elementAt b.fList i with
      | .error f => .error f
      | .ok y =>
        match x.opNe y with
        | .error f => .error f
        | .ok true => .ok false
        | .ok false => opEqLoop a b todo (i + 1)

/-- The friend `operator==(const GrClip&, const GrClip&)` (GrClip.h 154-165). -/
def opEq [BEq R] [BEq P] (a b : GrClip R P F) : Except Fault Bool :=
  if a.fList.length != b.fList.length then
    .ok false
  else
    let count := a.fList.length
    opEqLoop a b count 0

/-- The friend `operator!=(const GrClip&, const GrClip&)` (GrClip.h 166-168). -/
def opNe [BEq R] [BEq P] (a b : GrClip R P F) : Except Fault Bool :=
  match a.opEq b with
  | .ok r => .ok (!r)
  | .error f => .error f

/-- Member `isWideOpen` (GrClip.h 141-143). -/
def isWideOpen (self : GrClip R P F) : Bool :=
  0 == self.fList.length

/-- Member `requiresAA` (GrClip.h 39). -/
def requiresAA (self : GrClip R P F) : Bool :=
  self.fRequiresAA

/-- Member `getConservativeBounds` (GrClip.h 34-37) in state-passing form: the call
gives the rectangle it returns and the stack as the call leaves it. -/
def getConservativeBounds (self : GrClip R P F) : Except Fault (R × GrClip R P F) := do
  GrAssert self.fConservativeBoundsValid
  return (self.fConservativeBounds, self)

/-- Member `isRect` (GrClip.h 127-139).  The pattern `[e]` is `1 == fList.count()`
with `e` the element `fList[0]`, which the `&&` chain reads only then. -/
def isRect [BEq R] (self : GrClip R P F) : Except Fault Bool :=
  match self.fList with
  | [e] =>
    if GrClipType.kRect_ClipType == e.fType &&
        (SkRegion.Op.kIntersect_Op == e.fOp || SkRegion.Op.kReplace_Op == e.fOp) then do
      GrAssert self.fConservativeBoundsValid
      GrAssert (self.fConservativeBounds == e.fRect)
      return true
    else
      return false
  | _ => return false

/-- The condition `isRect` tests before its assertions: exactly one element,
a rectangle, combined by intersect or replace. -/
def singleRectCondition (self : GrClip R P F) : Bool :=
  match self.fList with
  | [e] =>
    GrClipType.kRect_ClipType == e.fType &&
      (SkRegion.Op.kIntersect_Op == e.fOp || SkRegion.Op.kReplace_Op == e.fOp)
  | _ => false

/-- The cached bounds are consistent: when the stack is a single rectangle
combined by intersect or replace, the bounds are valid and compare equal to
that rectangle (the two conditions `isRect` asserts). -/
def boundsConsistent [BEq R] (self : GrClip R P F) : Bool :=
  match self.fList with
  | [e] =>
    if GrClipType.kRect_ClipType == e.fType &&
        (SkRegion.Op.kIntersect_Op == e.fOp || SkRegion.Op.kReplace_Op == e.fOp) then
      self.fConservativeBoundsValid && self.fConservativeBounds == e.fRect
    else
      true
  | _ => true

/-- Every element of the stack has a recognised kind, rectangle or path. -/
def allRecognised (self : GrClip R P F) : Bool :=
  self.fList.all fun e =>
    e.fType == GrClipType.kRect_ClipType || e.fType == GrClipType.kPath_ClipType

/-- Modelled from the spec: `GrClip::setEmpty` and the constructor `GrClip()`
are defined in GrClip.cpp, which is not part of the sources.  Spec 4.1: the
empty, unbounded stack, its bounds trivially valid and equal to a sentinel;
`unbounded` is that sentinel. -/
def setEmpty (unbounded : R) : GrClip R P F :=
  { fConservativeBounds := unbounded
    fConservativeBoundsValid := true
    fRequiresAA := false
    fList := [] }

/-- Modelled from the spec: `GrClip::setFromRect` and the constructor
`GrClip(const GrRect&)` are defined in GrClip.cpp, which is not part of the
sources.  Spec 4.1: a single rectangle element with op intersect and no
anti-aliasing, the bounds valid and equal to the rectangle.  `path` and `fill`
are what the unused members `fPath` and `fPathFill` of the element hold. -/
def setFromRect (rect : R) (path : P) (fill : F) : GrClip R P F :=
  { fConservativeBounds := rect
    fConservativeBoundsValid := true
    fRequiresAA := false
    fList := [{ fType := .kRect_ClipType, fRect := rect, fPath := path, fPathFill := fill,
                fOp := .kIntersect_Op, fDoAA := false }] }

/-- Modelled from the spec: `GrClip::setFromIterator` and the constructor
`GrClip(GrClipIterator*, const GrRect&)` are defined in GrClip.cpp, which is not
part of the sources.  Spec 4.1: the elements the iterator produces, in order
(`drained`), the supplied bounds recorded as valid, not recomputed, and the
anti-alias flag true iff a drained element asked for anti-aliasing. -/
def setFromIterator (drained : List (Element R P F)) (conservativeBounds : R) : GrClip R P F :=
  { fConservativeBounds := conservativeBounds
    fConservativeBoundsValid := true
    fRequiresAA := drained.any fun e => e.fDoAA
    fList := drained }

/-- Modelled from the spec: the stacks a program can hold.  The data members
are private and only the constructors and `set...` members of GrClip.cpp, which
is not part of the sources, write them; each replaces the whole value (spec 3,
lifecycle).  `GrClip(const GrIRect&)` and `setFromIRect` are `fromRect` at the
rectangle the integer rectangle converts to; copying keeps the value. -/
inductive Built : GrClip R P F → Prop where
  | empty (unbounded : R) : Built (setEmpty unbounded)
  | fromRect (rect : R) (path : P) (fill : F) : Built (setFromRect rect path fill)
  | fromIterator (drained : List (Element R P F)) (conservativeBounds : R) :
      Built (setFromIterator drained conservativeBounds)

end GrClip

/-- The data members of `GrClipData` (GrClip.h 215-216); `fClipStack` is
`none` for `NULL`. -/
structure GrClipData (R P F : Type) where
  fClipStack : Option (GrClip R P F)
  fOrigin : SkIPoint

namespace GrClipData

variable {R P F : Type}

/-- Member `GrClipData::operator==` (GrClip.h 223-233).  The last line compares the
two pointers and is reached only when one of them is `NULL`, so it is true
exactly when both are. -/
def opEq [BEq R] [BEq P] (self other : GrClipData R P F) : Except Fault Bool :=
  if self.fOrigin.opNe other.fOrigin then
    .ok false
  else
    match self.fClipStack, other.fClipStack with
    | some a, some b => a.opEq b
    | a, b => .ok (a.isNone && b.isNone)

/-- Member `GrClipData::operator!=` (GrClip.h 235-237). -/
def opNe [BEq R] [BEq P] (self other : GrClipData R P F) : Except Fault Bool :=
  match self.opEq other with
  | .ok r => .ok (!r)
  | .error f => .error f

end GrClipData

/-! ## The iterator -/

namespace GrClip

variable {R P F : Type}

/-- The struct `GrClip::Iter::Clip` (GrClip.h 55-63); a null pointer is `none`. -/
structure Iter.Clip (R P : Type) where
  fRect : Option R
  fPath : Option P
  fOp : SkRegion.Op
  fDoAA : Bool

/-- The constructor `Clip()` (GrClip.h 56-57): both pointers null, op intersect,
no anti-aliasing. -/
def Iter.Clip.empty : Iter.Clip R P :=
  { fRect := none, fPath := none, fOp := .kIntersect_Op, fDoAA := false }

/-- The enum `GrClip::Iter::IterStart` (GrClip.h 43-46). -/
inductive Iter.IterStart where
  | kBottom_IterStart
  | kTop_IterStart
  deriving DecidableEq, Repr

/-- The data members of `GrClip::Iter` (GrClip.h 90-92); `fStack` is `none` for
an iterator that was not reset. -/
structure Iter (R P F : Type) where
  fStack : Option (GrClip R P F)
  fClip : Iter.Clip R P
  fCurIndex : Int

namespace Iter

/-- Modelled from the spec: the view of an element that `Iter::updateClip`
(declared GrClip.h 99, defined in GrClip.cpp, which is not part of the sources)
stores in `fClip`.  Spec 4.2: a rectangle pointer, non-null iff the element is a
Rectangle, a path pointer, non-null iff the element is a Path, the op and the
anti-alias flag. -/
def viewOf (e : Element R P F) : Iter.Clip R P :=
  { fRect := if e.fType = .kRect_ClipType then some e.fRect else none
    fPath := if e.fType = .kPath_ClipType then some e.fPath else none
    fOp := e.fOp
    fDoAA := e.fDoAA }

/-- Modelled from the spec: `Iter::reset` is declared in GrClip.h 87 and defined
in GrClip.cpp, which is not part of the sources.  Spec 4.2: the cursor goes just
before the bottom or just after the top, so that the first `next()` or `prev()`
lands on the first element in that direction. -/
def reset (stack : GrClip R P F) (startLoc : IterStart) : Iter R P F :=
  { fStack := some stack
    fClip := Iter.Clip.empty
    fCurIndex :=
      match startLoc with
      | .kBottom_IterStart => -1
      | .kTop_IterStart => stack.getElementCount }

/-- Modelled from the spec: the scan of `Iter::skipToTopmost` (GrClip.cpp, not
part of the sources).  Spec 4.2: from index `i` toward the top, over the `todo`
indices left, the first element whose op is `op`, with its index. -/
def scanForOp (l : List (Element R P F)) (op : SkRegion.Op) :
    (todo : Nat) → (i : Nat) → Option (Nat × Element R P F)
  | 0, _ => none
  | todo + 1, i =>
    match l[i]? with
    | none => none
    | some e => if e.fOp = op then some (i, e) else scanForOp l op todo (i + 1)

/-- Modelled from the spec: `Iter::skipToTopmost` is declared in GrClip.h 82 and
defined in GrClip.cpp, which is not part of the sources.  Spec 4.2: it scans
from the current position toward the top for the first element whose op matches
the argument, repositions the cursor there and returns that element's view; it
returns the terminal sentinel (`none`, the null pointer) and leaves the cursor
exhausted, past the top, if no match exists at or above the current position.
A cursor before the bottom scans from the bottom.  On an iterator that was not
reset the call is a contract violation. -/
def skipToTopmost (self : Iter R P F) (op : SkRegion.Op) :
    Except Fault (Option (Iter.Clip R P) × Iter R P F) :=
  match self.fStack with
  | none => .error .assertion
  | some stack =>
    let start := self.fCurIndex.toNat
    match scanForOp stack.fList op (stack.getElementCount - start) start with
    | some (j, e) =>
      .ok (some (viewOf e), { fStack := some stack, fClip := viewOf e, fCurIndex := j })
    | none =>
      .ok (none, { fStack := some stack, fClip := Iter.Clip.empty,
                   fCurIndex := stack.getElementCount })

end Iter

end GrClip

/-! ## Concrete geometry for evaluating the definitions -/

/-- Modelled from the spec: the struct `GrIRect` (an `SkIRect`) is declared in
GrRect.h, which is not part of the sources.  Spec 4.3: an integer rectangle.
It is also the rectangle type at which the definitions are evaluated, compared
coordinate by coordinate. -/
structure GrIRect where
  fLeft : Int
  fTop : Int
  fRight : Int
  fBottom : Int
  deriving DecidableEq, Repr

/-- A rectangle element over `GrIRect` rectangles, paths given by their points
and fill rules by number. -/
def rectElement (r : GrIRect) (op : SkRegion.Op) (aa : Bool) :
    GrClip.Element GrIRect (List SkIPoint) Nat :=
  { fType := .kRect_ClipType, fRect := r, fPath := [], fPathFill := 0, fOp := op, fDoAA := aa }

/-- A path element over the same concrete geometry. -/
def pathElement (p : List SkIPoint) (op : SkRegion.Op) (aa : Bool) :
    GrClip.Element GrIRect (List SkIPoint) Nat :=
  { fType := .kPath_ClipType, fRect := ⟨0, 0, 0, 0⟩, fPath := p, fPathFill := 0, fOp := op,
    fDoAA := aa }

/-- The rectangle (0,0,100,100). -/
def rect100 : GrIRect := ⟨0, 0, 100, 100⟩

/-- The stack built from the rectangle (0,0,100,100). -/
def rectStack : GrClip GrIRect (List SkIPoint) Nat :=
  GrClip.setFromRect rect100 [] 0

/-- A triangle path. -/
def trianglePath : List SkIPoint := [⟨0, 0⟩, ⟨5, 0⟩, ⟨0, 5⟩]

/-- A stack drained from an iterator that produces one anti-aliased path
element, with supplied bounds (0,0,10,10). -/
def pathStackSmall : GrClip GrIRect (List SkIPoint) Nat :=
  GrClip.setFromIterator [pathElement trianglePath .kUnion_Op true] ⟨0, 0, 10, 10⟩

/-- A stack drained from an iterator that produces the same element, with
supplied bounds (0,0,20,20). -/
def pathStackLarge : GrClip GrIRect (List SkIPoint) Nat :=
  GrClip.setFromIterator [pathElement trianglePath .kUnion_Op true] ⟨0, 0, 20, 20⟩

/-- A stack drained from an iterator that produces the rectangle (0,0,100,100)
and then the triangle path. -/
def mixedStack : GrClip GrIRect (List SkIPoint) Nat :=
  GrClip.setFromIterator
    [rectElement rect100 .kIntersect_Op false, pathElement trianglePath .kUnion_Op true]
    ⟨0, 0, 100, 100⟩

/-- An element whose kind is neither rectangle nor path, with op intersect and
no anti-aliasing. -/
def unknownElement : GrClip.Element GrIRect (List SkIPoint) Nat :=
  { fType := .unrecognised 7, fRect := rect100, fPath := [], fPathFill := 0,
    fOp := .kIntersect_Op, fDoAA := false }

/-- A stack that holds one element of unrecognised kind. -/
def unknownStack : GrClip GrIRect (List SkIPoint) Nat :=
  { fConservativeBounds := rect100, fConservativeBoundsValid := true, fRequiresAA := false,
    fList := [unknownElement] }

/-- Every element of the stack a context refers to has a recognised kind; a
context with a null stack has no elements. -/
def GrClipData.allRecognised {R P F : Type} (self : GrClipData R P F) : Bool :=
  match self.fClipStack with
  | none => true
  | some stack => stack.allRecognised

/-- A context with a null stack and origin (10,10). -/
def nullClipData : GrClipData GrIRect (List SkIPoint) Nat :=
  { fClipStack := none, fOrigin := ⟨10, 10⟩ }

/-- A context with origin (10,10) that refers to the one-path stack with bounds
(0,0,10,10). -/
def smallClipData : GrClipData GrIRect (List SkIPoint) Nat :=
  { fClipStack := some pathStackSmall, fOrigin := ⟨10, 10⟩ }

/-- A context with origin (10,10) that refers to the one-path stack with bounds
(0,0,20,20). -/
def largeClipData : GrClipData GrIRect (List SkIPoint) Nat :=
  { fClipStack := some pathStackLarge, fOrigin := ⟨10, 10⟩ }

namespace GrClip

variable {R P F : Type}

/-- Unfolding of `Element::operator==` to the three tests and the switch. -/
theorem element_opEq_ok_true_iff [BEq R] [BEq P] (x y : Element R P F) :
    x.opEq y = .ok true ↔
      x.fType = y.fType ∧ x.fOp = y.fOp ∧ x.fDoAA = y.fDoAA ∧
        ((x.fType = .kRect_ClipType ∧ (x.fRect == y.fRect) = true) ∨
          (x.fType = .kPath_ClipType ∧ (x.fPath == y.fPath) = true)) := by
  unfold Element.opEq
  by_cases ht : y.fType = x.fType
  · by_cases ho : y.fOp = x.fOp
    · by_cases hd : y.fDoAA = x.fDoAA
      · cases hx : x.fType <;> simp [ht, ho, hd, hx]
      · have hd2 : ¬ x.fDoAA = y.fDoAA := fun h => hd h.symm
        simp [ht, ho, hd, hd2]
    · have ho2 : ¬ x.fOp = y.fOp := fun h => ho h.symm
      simp [ht, ho, ho2]
  · have ht2 : ¬ x.fType = y.fType := fun h => ht h.symm
    simp [ht, ht2]

/-- The negated comparison is false exactly when the comparison is true. -/
theorem element_opNe_ok_false_iff [BEq R] [BEq P] (x y : Element R P F) :
    x.opNe y = .ok false ↔ x.opEq y = .ok true := by
  unfold Element.opNe
  cases h : x.opEq y with
  | error f => simp
  | ok r => cases r <;> simp

/-! ## Stack comparison -/

/-- The loop of `operator==` ends with `true` exactly when every pair of
elements at the indices it visits compares equal. -/
theorem opEqLoop_ok_true_iff [BEq R] [BEq P] (a b : GrClip R P F) (todo i : Nat) :
    opEqLoop a b todo i = .ok true ↔
      ∀ j, i ≤ j → j < i + todo →
        ∃ x y, a.fList[j]? = some x ∧ b.fList[j]? = some y ∧ x.opEq y = .ok true := by
  induction todo generalizing i with
  | zero =>
    simp only [opEqLoop, true_iff]
    intro j h1 h2
    omega
  | succ n ih =>
    have hstep : ∀ (Q : Nat → Prop), (∀ j, i ≤ j → j < i + (n + 1) → Q j) ↔
        (Q i ∧ ∀ j, i + 1 ≤ j → j < i + 1 + n → Q j) := by
      intro Q
      constructor
      · intro h
        exact ⟨h i (Nat.le_refl i) (by omega), fun j h1 h2 => h j (by omega) (by omega)⟩
      · rintro ⟨h0, h⟩ j h1 h2
        rcases Nat.eq_or_lt_of_le h1 with heq | hlt
        · subst heq
          exact h0
        · exact h j hlt (by omega)
    rw [hstep]
    unfold opEqLoop elementAt
    cases hx : a.fList[i]? with
    | none => simp
    | some x =>
      cases hy : b.fList[i]? with
      | none => simp
      | some y =>
        simp only [Option.some.injEq, exists_and_left, exists_eq_left']
        cases hne : x.opNe y with
        | error f =>
          have : ¬ x.opEq y = .ok true := by
            rw [← element_opNe_ok_false_iff, hne]
            simp
          simp [this]
        | ok r =>
          cases r with
          | true =>
            have : ¬ x.opEq y = .ok true := by
              rw [← element_opNe_ok_false_iff, hne]
              simp
            simp [this]
          | false =>
            have : x.opEq y = .ok true := by
              rw [← element_opNe_ok_false_iff, hne]
            simp only [this, true_and]
            rw [ih (i + 1)]
            simp

/-- Characterisation of `operator==` on stacks used by the results below. -/
theorem opEq_ok_true_iff [BEq R] [BEq P] (a b : GrClip R P F) :
    a.opEq b = .ok true ↔
      a.fList.length = b.fList.length ∧
        ∀ i, i < a.fList.length →
          ∃ x y, a.fList[i]? = some x ∧ b.fList[i]? = some y ∧ x.opEq y = .ok true := by
  unfold opEq
  by_cases hlen : a.fList.length = b.fList.length
  · simp only [hlen, bne_self_eq_false, Bool.false_eq_true, ↓reduceIte, true_and]
    rw [← hlen, opEqLoop_ok_true_iff]
    constructor
    · intro h i hi
      exact h i (Nat.zero_le i) (by omega)
    · intro h j _ hj
      exact h j (by omega)
  · simp [hlen]

/-- The loop of `operator==` reads nothing of the two stacks but `fList`. -/
theorem opEqLoop_congr [BEq R] [BEq P] (a b c d : GrClip R P F)
    (hac : a.fList = c.fList) (hbd : b.fList = d.fList) (todo i : Nat) :
    opEqLoop a b todo i = opEqLoop c d todo i := by
  induction todo generalizing i with
  | zero => rfl
  | succ n ih =>
    unfold opEqLoop
    rw [hac, hbd]
    simp only [ih]

/-- The comparison `operator==` reads nothing of the two stacks but `fList`. -/
theorem opEq_congr [BEq R] [BEq P] (a b c d : GrClip R P F)
    (hac : a.fList = c.fList) (hbd : b.fList = d.fList) :
    a.opEq b = c.opEq d := by
  unfold opEq
  rw [opEqLoop_congr a b c d hac hbd, hac, hbd]

/-- C1: `operator==` on two clip stacks returns true if and only if the two
element lists have the same length and, at every index below that length, the
element of `a` equals the element of `b` under `Element::operator==`; and the
result is the same whatever the two stacks hold in `fConservativeBounds`,
`fConservativeBoundsValid` and `fRequiresAA`. -/
theorem opEq_iff_elementwise [BEq R] [BEq P] (a b : GrClip R P F) :
    (a.opEq b = .ok true ↔
      a.getElementCount = b.getElementCount ∧
        ∀ i, i < a.getElementCount →
          ∃ x y, a.fList[i]? = some x ∧ b.fList[i]? = some y ∧ x.opEq y = .ok true) ∧
    (∀ (cb1 cb2 : R) (v1 v2 aa1 aa2 : Bool),
      opEq ⟨cb1, v1, aa1, a.fList⟩ ⟨cb2, v2, aa2, b.fList⟩ = a.opEq b) :=
  ⟨opEq_ok_true_iff a b, fun _ _ _ _ _ _ => opEq_congr _ _ a b rfl rfl⟩

/-! ## Classification queries -/

/-- The condition `isRect` tests, spelled out on the element list. -/
theorem singleRectCondition_iff (S : GrClip R P F) :
    S.singleRectCondition = true ↔
      ∃ e, S.fList = [e] ∧ e.fType = .kRect_ClipType ∧
        (e.fOp = .kIntersect_Op ∨ e.fOp = .kReplace_Op) := by
  unfold singleRectCondition
  cases hl : S.fList with
  | nil => simp
  | cons e l =>
    cases l with
    | nil =>
      simp only [Bool.and_eq_true, Bool.or_eq_true, beq_iff_eq, List.cons.injEq, and_true]
      constructor
      · rintro ⟨h1, h2⟩
        exact ⟨e, rfl, h1.symm, h2.imp Eq.symm Eq.symm⟩
      · rintro ⟨e2, rfl, h1, h2⟩
        exact ⟨h1.symm, h2.imp Eq.symm Eq.symm⟩
    | cons e2 l2 => simp

/-- What `isRect` does, by whether its condition holds. -/
theorem isRect_eq [BEq R] (S : GrClip R P F) :
    S.isRect =
      if S.singleRectCondition then
        match S.fList with
        | [e] =>
          if S.fConservativeBoundsValid && S.fConservativeBounds == e.fRect then .ok true
          else .error .assertion
        | _ => .ok false
      else .ok false := by
  unfold isRect singleRectCondition
  cases hl : S.fList with
  | nil => rfl
  | cons e l =>
    cases l with
    | nil =>
      by_cases hc : (GrClipType.kRect_ClipType == e.fType &&
          (SkRegion.Op.kIntersect_Op == e.fOp || SkRegion.Op.kReplace_Op == e.fOp)) = true
      · cases hv : S.fConservativeBoundsValid <;>
          cases hb : (S.fConservativeBounds == e.fRect) <;>
          simp [hc, GrAssert, bind, Except.bind, pure, Except.pure, hb]
      · simp [hc, pure, Except.pure]
    | cons e2 l2 => simp [pure, Except.pure]

/-- C2: for a clip stack whose cached bounds are consistent, so that no
assertion fires, `isRect` returns true if and only if the element list has
exactly one element, of type Rectangle, with op Intersect or Replace; for every
other stack it returns false. -/
theorem isRect_iff_single_rect [BEq R] (S : GrClip R P F) (h : S.boundsConsistent = true) :
    (S.isRect = .ok true ↔
      ∃ e, S.fList = [e] ∧ e.fType = .kRect_ClipType ∧
        (e.fOp = .kIntersect_Op ∨ e.fOp = .kReplace_Op)) ∧
    ((¬ ∃ e, S.fList = [e] ∧ e.fType = .kRect_ClipType ∧
        (e.fOp = .kIntersect_Op ∨ e.fOp = .kReplace_Op)) → S.isRect = .ok false) := by
  rw [← singleRectCondition_iff, isRect_eq]
  unfold boundsConsistent at h
  unfold singleRectCondition
  cases hl : S.fList with
  | nil => simp
  | cons e l =>
    cases l with
    | nil =>
      rw [hl] at h
      by_cases hc : (GrClipType.kRect_ClipType == e.fType &&
          (SkRegion.Op.kIntersect_Op == e.fOp || SkRegion.Op.kReplace_Op == e.fOp)) = true
      · simp only [hc, if_true] at h
        simp [hc, h]
      · simp [hc]
    | cons e2 l2 => simp

/-- Witness of C2 at the stack built from the rectangle (0,0,100,100). -/
theorem isRect_iff_single_rect_witness :
    rectStack.boundsConsistent = true ∧
    ((rectStack.isRect = .ok true ↔
      ∃ e, rectStack.fList = [e] ∧ e.fType = .kRect_ClipType ∧
        (e.fOp = .kIntersect_Op ∨ e.fOp = .kReplace_Op)) ∧
    ((¬ ∃ e, rectStack.fList = [e] ∧ e.fType = .kRect_ClipType ∧
        (e.fOp = .kIntersect_Op ∨ e.fOp = .kReplace_Op)) → rectStack.isRect = .ok false)) :=
  ⟨rfl, isRect_iff_single_rect rectStack rfl⟩

/-- C4: `isWideOpen` is true if and only if the element count is 0. -/
theorem isWideOpen_iff_count_zero (S : GrClip R P F) :
    S.isWideOpen = true ↔ S.getElementCount = 0 := by
  unfold isWideOpen getElementCount
  simp only [beq_iff_eq]
  exact eq_comm

/-- C5: for two elements of a recognised kind, `Element::operator==` returns
a result, and the result is true if and only if the two have the same kind, the
same op, the same anti-alias flag and equal geometry: rectangles that compare
equal when the kind is Rectangle, paths that compare equal when it is Path. -/
theorem element_opEq_iff_same [BEq R] [BEq P] (e1 e2 : Element R P F)
    (h1 : e1.fType = .kRect_ClipType ∨ e1.fType = .kPath_ClipType)
    (h2 : e2.fType = .kRect_ClipType ∨ e2.fType = .kPath_ClipType) :
    (∃ r, e1.opEq e2 = .ok r) ∧
    (e1.opEq e2 = .ok true ↔
      e1.fType = e2.fType ∧ e1.fOp = e2.fOp ∧ e1.fDoAA = e2.fDoAA ∧
        (e1.fType = .kRect_ClipType → (e1.fRect == e2.fRect) = true) ∧
        (e1.fType = .kPath_ClipType → (e1.fPath == e2.fPath) = true)) := by
  constructor
  · unfold Element.opEq
    split
    · exact ⟨false, rfl⟩
    · rcases h1 with h | h <;> rw [h] <;> exact ⟨_, rfl⟩
  · rw [element_opEq_ok_true_iff]
    have _ := h2
    rcases h1 with h | h <;> simp [h]

/-- Witness of C5 at the rectangle element and the path element of the stack
`mixedStack`. -/
theorem element_opEq_iff_same_witness :
    ((rectElement rect100 .kIntersect_Op false).fType = .kRect_ClipType ∨
      (rectElement rect100 .kIntersect_Op false).fType = .kPath_ClipType) ∧
    ((pathElement trianglePath .kUnion_Op true).fType = .kRect_ClipType ∨
      (pathElement trianglePath .kUnion_Op true).fType = .kPath_ClipType) ∧
    (∃ r, (rectElement rect100 .kIntersect_Op false).opEq
      (pathElement trianglePath .kUnion_Op true) = .ok r) :=
  ⟨Or.inl rfl, Or.inr rfl,
    (element_opEq_iff_same (rectElement rect100 .kIntersect_Op false)
      (pathElement trianglePath .kUnion_Op true) (Or.inl rfl) (Or.inr rfl)).1⟩

/-! ## The comparison is an equivalence -/

/-- An element of a recognised kind equals itself when rectangle and path
comparison are reflexive. -/
theorem element_opEq_refl [BEq R] [BEq P]
    (hR : ∀ r : R, (r == r) = true) (hP : ∀ p : P, (p == p) = true)
    (x : Element R P F)
    (hx : (x.fType == GrClipType.kRect_ClipType || x.fType == GrClipType.kPath_ClipType) = true) :
    x.opEq x = .ok true := by
  rw [element_opEq_ok_true_iff]
  simp only [Bool.or_eq_true, beq_iff_eq] at hx
  refine ⟨rfl, rfl, rfl, ?_⟩
  rcases hx with h | h
  · exact Or.inl ⟨h, hR _⟩
  · exact Or.inr ⟨h, hP _⟩

/-- Element comparison is symmetric when rectangle and path comparison are. -/
theorem element_opEq_symm [BEq R] [BEq P]
    (hR : ∀ r s : R, (r == s) = true → (s == r) = true)
    (hP : ∀ p q : P, (p == q) = true → (q == p) = true)
    (x y : Element R P F) (h : x.opEq y = .ok true) : y.opEq x = .ok true := by
  rw [element_opEq_ok_true_iff] at h ⊢
  obtain ⟨ht, ho, hd, hg⟩ := h
  refine ⟨ht.symm, ho.symm, hd.symm, ?_⟩
  rcases hg with ⟨h1, h2⟩ | ⟨h1, h2⟩
  · exact Or.inl ⟨ht ▸ h1, hR _ _ h2⟩
  · exact Or.inr ⟨ht ▸ h1, hP _ _ h2⟩

/-- Element comparison is transitive when rectangle and path comparison are. -/
theorem element_opEq_trans [BEq R] [BEq P]
    (hR : ∀ r s t : R, (r == s) = true → (s == t) = true → (r == t) = true)
    (hP : ∀ p q u : P, (p == q) = true → (q == u) = true → (p == u) = true)
    (x y z : Element R P F) (hxy : x.opEq y = .ok true) (hyz : y.opEq z = .ok true) :
    x.opEq z = .ok true := by
  rw [element_opEq_ok_true_iff] at hxy hyz ⊢
  obtain ⟨ht, ho, hd, hg⟩ := hxy
  obtain ⟨ht2, ho2, hd2, hg2⟩ := hyz
  refine ⟨ht.trans ht2, ho.trans ho2, hd.trans hd2, ?_⟩
  rcases hg with ⟨h1, h2⟩ | ⟨h1, h2⟩
  · rcases hg2 with ⟨h3, h4⟩ | ⟨h3, h4⟩
    · exact Or.inl ⟨h1, hR _ _ _ h2 h4⟩
    · rw [← ht, h1] at h3
      exact absurd h3 (by decide)
  · rcases hg2 with ⟨h3, h4⟩ | ⟨h3, h4⟩
    · rw [← ht, h1] at h3
      exact absurd h3 (by decide)
    · exact Or.inr ⟨h1, hP _ _ _ h2 h4⟩

/-- A stack of recognised elements equals itself. -/
theorem opEq_refl [BEq R] [BEq P]
    (hR : ∀ r : R, (r == r) = true) (hP : ∀ p : P, (p == p) = true)
    (a : GrClip R P F) (ha : a.allRecognised = true) : a.opEq a = .ok true := by
  rw [opEq_ok_true_iff]
  refine ⟨rfl, fun i hi => ?_⟩
  refine ⟨a.fList[i], a.fList[i], List.getElem?_eq_getElem hi, List.getElem?_eq_getElem hi, ?_⟩
  unfold allRecognised at ha
  rw [List.all_eq_true] at ha
  exact element_opEq_refl hR hP _ (ha _ (List.getElem_mem hi))

/-- Stack comparison is symmetric. -/
theorem opEq_symm [BEq R] [BEq P]
    (hR : ∀ r s : R, (r == s) = true → (s == r) = true)
    (hP : ∀ p q : P, (p == q) = true → (q == p) = true)
    (a b : GrClip R P F) (h : a.opEq b = .ok true) : b.opEq a = .ok true := by
  rw [opEq_ok_true_iff] at h ⊢
  obtain ⟨hlen, hall⟩ := h
  refine ⟨hlen.symm, fun i hi => ?_⟩
  obtain ⟨x, y, hx, hy, hxy⟩ := hall i (hlen ▸ hi)
  exact ⟨y, x, hy, hx, element_opEq_symm hR hP x y hxy⟩

/-- Stack comparison is transitive. -/
theorem opEq_trans [BEq R] [BEq P]
    (hR : ∀ r s t : R, (r == s) = true → (s == t) = true → (r == t) = true)
    (hP : ∀ p q u : P, (p == q) = true → (q == u) = true → (p == u) = true)
    (a b c : GrClip R P F) (hab : a.opEq b = .ok true) (hbc : b.opEq c = .ok true) :
    a.opEq c = .ok true := by
  rw [opEq_ok_true_iff] at hab hbc ⊢
  obtain ⟨hlen, hall⟩ := hab
  obtain ⟨hlen2, hall2⟩ := hbc
  refine ⟨hlen.trans hlen2, fun i hi => ?_⟩
  obtain ⟨x, y, hx, hy, hxy⟩ := hall i hi
  obtain ⟨y2, z, hy2, hz, hyz⟩ := hall2 i (hlen ▸ hi)
  rw [hy] at hy2
  cases hy2
  exact ⟨x, z, hx, hz, element_opEq_trans hR hP x y z hxy hyz⟩

/-- C7: `operator==` is an equivalence relation on clip stacks whose elements
have recognised kinds, when rectangle and path equality are reflexive,
symmetric and transitive: `a == a`; `a == b` implies `b == a`; and `a == b`
with `b == c` implies `a == c`. -/
theorem opEq_equivalence [BEq R] [BEq P]
    (hRrefl : ∀ r : R, (r == r) = true)
    (hRsymm : ∀ r s : R, (r == s) = true → (s == r) = true)
    (hRtrans : ∀ r s t : R, (r == s) = true → (s == t) = true → (r == t) = true)
    (hPrefl : ∀ p : P, (p == p) = true)
    (hPsymm : ∀ p q : P, (p == q) = true → (q == p) = true)
    (hPtrans : ∀ p q u : P, (p == q) = true → (q == u) = true → (p == u) = true)
    (a b c : GrClip R P F)
    (ha : a.allRecognised = true) (hb : b.allRecognised = true) (hc : c.allRecognised = true) :
    a.opEq a = .ok true ∧
    (a.opEq b = .ok true → b.opEq a = .ok true) ∧
    (a.opEq b = .ok true → b.opEq c = .ok true → a.opEq c = .ok true) := by
  have _ := hb
  have _ := hc
  exact ⟨opEq_refl hRrefl hPrefl a ha, opEq_symm hRsymm hPsymm a b,
    opEq_trans hRtrans hPtrans a b c⟩

/-- Witness of C7 at three stacks that hold the same path element with
different cached bounds. -/
theorem opEq_equivalence_witness :
    pathStackSmall.allRecognised = true ∧ pathStackLarge.allRecognised = true ∧
    pathStackSmall.opEq pathStackLarge = .ok true ∧
    (pathStackSmall.opEq pathStackSmall = .ok true ∧
      (pathStackSmall.opEq pathStackLarge = .ok true →
        pathStackLarge.opEq pathStackSmall = .ok true) ∧
      (pathStackSmall.opEq pathStackLarge = .ok true →
        pathStackLarge.opEq pathStackSmall = .ok true →
        pathStackSmall.opEq pathStackSmall = .ok true)) :=
  ⟨rfl, rfl, rfl,
    opEq_equivalence (fun r => beq_self_eq_true r)
      (fun _ _ h => beq_iff_eq.2 (beq_iff_eq.1 h).symm)
      (fun _ _ _ h1 h2 => beq_iff_eq.2 ((beq_iff_eq.1 h1).trans (beq_iff_eq.1 h2)))
      (fun p => beq_self_eq_true p)
      (fun _ _ h => beq_iff_eq.2 (beq_iff_eq.1 h).symm)
      (fun _ _ _ h1 h2 => beq_iff_eq.2 ((beq_iff_eq.1 h1).trans (beq_iff_eq.1 h2)))
      pathStackSmall pathStackLarge pathStackSmall rfl rfl rfl⟩

/-! ## Derived fields -/

/-- With valid bounds `getConservativeBounds` returns the cached rectangle. -/
theorem getConservativeBounds_of_valid (S : GrClip R P F)
    (h : S.fConservativeBoundsValid = true) :
    S.getConservativeBounds = .ok (S.fConservativeBounds, S) := by
  unfold getConservativeBounds GrAssert
  simp [h, bind, Except.bind, pure, Except.pure]

/-- C8: `getConservativeBounds` fails with the assertion if and only if
`fConservativeBoundsValid` is false; when it is true the call returns exactly
the cached `fConservativeBounds` and leaves the stack as it was. -/
theorem getConservativeBounds_spec (S : GrClip R P F) :
    (S.getConservativeBounds = .error .assertion ↔ S.fConservativeBoundsValid = false) ∧
    (S.fConservativeBoundsValid = true →
      S.getConservativeBounds = .ok (S.fConservativeBounds, S)) := by
  unfold getConservativeBounds GrAssert
  cases h : S.fConservativeBoundsValid <;> simp [bind, Except.bind, pure, Except.pure]

/-- A built stack has valid bounds and an anti-alias flag computed from its
elements. -/
theorem Built.fields {S : GrClip R P F} (h : Built S) :
    S.fConservativeBoundsValid = true ∧ S.fRequiresAA = S.fList.any fun e => e.fDoAA := by
  cases h <;> exact ⟨rfl, rfl⟩

/-- Equal stacks have the same anti-alias flags, element by element. -/
theorem opEq_any_doAA [BEq R] [BEq P] (a b : GrClip R P F) (h : a.opEq b = .ok true) :
    (a.fList.any fun e => e.fDoAA) = (b.fList.any fun e => e.fDoAA) := by
  rw [opEq_ok_true_iff] at h
  obtain ⟨hlen, hall⟩ := h
  have hmap : a.fList.map (fun e => e.fDoAA) = b.fList.map (fun e => e.fDoAA) := by
    apply List.ext_getElem?
    intro i
    by_cases hi : i < a.fList.length
    · obtain ⟨x, y, hx, hy, hxy⟩ := hall i hi
      rw [element_opEq_ok_true_iff] at hxy
      simp [hx, hy, hxy.2.2.1]
    · have hi2 : ¬ i < b.fList.length := hlen ▸ hi
      simp [List.getElem?_eq_none (Nat.le_of_not_lt hi), List.getElem?_eq_none (Nat.le_of_not_lt hi2)]
  have : ∀ l : List (Element R P F), (l.any fun e => e.fDoAA) = (l.map fun e => e.fDoAA).any id := by
    intro l
    induction l with
    | nil => rfl
    | cons x xs ih => simp only [List.any_cons, List.map_cons, ih, id]
  rw [this a.fList, this b.fList, hmap]

/-- C9, counterexample: two stacks drained from the same one-element sequence,
one with supplied bounds (0,0,10,10) and one with (0,0,20,20), compare equal,
and `getConservativeBounds` returns different rectangles for them. -/
theorem opEq_bounds_differ :
    Built pathStackSmall ∧ Built pathStackLarge ∧
    pathStackSmall.opEq pathStackLarge = .ok true ∧
    pathStackSmall.getConservativeBounds = .ok (⟨0, 0, 10, 10⟩, pathStackSmall) ∧
    pathStackLarge.getConservativeBounds = .ok (⟨0, 0, 20, 20⟩, pathStackLarge) ∧
    ((⟨0, 0, 10, 10⟩ : GrIRect) == (⟨0, 0, 20, 20⟩ : GrIRect)) = false ∧
    Except.map Prod.fst pathStackSmall.getConservativeBounds ≠
      Except.map Prod.fst pathStackLarge.getConservativeBounds :=
  ⟨Built.fromIterator _ _, Built.fromIterator _ _, rfl, rfl, rfl, rfl, by
    have hs : Except.map Prod.fst pathStackSmall.getConservativeBounds
        = (.ok ⟨0, 0, 10, 10⟩ : Except Fault GrIRect) := rfl
    have hl : Except.map Prod.fst pathStackLarge.getConservativeBounds
        = (.ok ⟨0, 0, 20, 20⟩ : Except Fault GrIRect) := rfl
    rw [hs, hl]
    simp⟩

/-- C9, amended: for two stacks built by the constructors or the `set...`
members, if `S1 == S2` then `requiresAA` returns the same for both and
`getConservativeBounds` returns (the cached rectangle) on both. -/
theorem built_opEq_requiresAA [BEq R] [BEq P] (S1 S2 : GrClip R P F)
    (h1 : Built S1) (h2 : Built S2) (h : S1.opEq S2 = .ok true) :
    S1.requiresAA = S2.requiresAA ∧
    S1.getConservativeBounds = .ok (S1.fConservativeBounds, S1) ∧
    S2.getConservativeBounds = .ok (S2.fConservativeBounds, S2) := by
  refine ⟨?_, getConservativeBounds_of_valid S1 h1.fields.1,
    getConservativeBounds_of_valid S2 h2.fields.1⟩
  unfold requiresAA
  rw [h1.fields.2, h2.fields.2]
  exact opEq_any_doAA S1 S2 h

/-- Witness of the amended C9 at the two stacks of the counterexample. -/
theorem built_opEq_requiresAA_witness :
    pathStackSmall.opEq pathStackLarge = .ok true ∧
    (pathStackSmall.requiresAA = pathStackLarge.requiresAA ∧
      pathStackSmall.getConservativeBounds = .ok (pathStackSmall.fConservativeBounds, pathStackSmall) ∧
      pathStackLarge.getConservativeBounds =
        .ok (pathStackLarge.fConservativeBounds, pathStackLarge)) :=
  ⟨rfl, built_opEq_requiresAA pathStackSmall pathStackLarge (Built.fromIterator _ _)
    (Built.fromIterator _ _) rfl⟩

/-- C10: for every clip stack built by the constructors or the `set...`
members, `requiresAA` returns true if and only if at least one element of the
stack has its anti-alias flag `fDoAA` set. -/
theorem requiresAA_iff_exists_doAA (S : GrClip R P F) (h : Built S) :
    S.requiresAA = true ↔ ∃ e, e ∈ S.fList ∧ e.fDoAA = true := by
  unfold requiresAA
  rw [h.fields.2, List.any_eq_true]

/-- Witness of C10 at the stack drained from a rectangle and an anti-aliased
path. -/
theorem requiresAA_iff_exists_doAA_witness :
    Built mixedStack ∧
    (mixedStack.requiresAA = true ↔ ∃ e, e ∈ mixedStack.fList ∧ e.fDoAA = true) :=
  ⟨Built.fromIterator _ _, requiresAA_iff_exists_doAA mixedStack (Built.fromIterator _ _)⟩

end GrClip

/-! ## Clip data comparison -/

namespace GrClipData

variable {R P F : Type}

/-- Two points differ under `operator!=` exactly when they are not equal. -/
theorem SkIPoint_opNe_eq_false_iff (p q : SkIPoint) : p.opNe q = false ↔ p = q := by
  cases p
  cases q
  simp [SkIPoint.opNe]

/-- C6: `GrClipData::operator==` returns true if and only if the origins are
equal and the referenced stacks are either both null or both non-null and equal
under `operator==` of `GrClip`; a context with a null stack and one with a
non-null stack, whatever that stack holds, compare unequal. -/
theorem opEq_iff_origin_and_stack [BEq R] [BEq P] (c1 c2 : GrClipData R P F) :
    (c1.opEq c2 = .ok true ↔
      c1.fOrigin = c2.fOrigin ∧
        ((c1.fClipStack = none ∧ c2.fClipStack = none) ∨
          ∃ a b, c1.fClipStack = some a ∧ c2.fClipStack = some b ∧ a.opEq b = .ok true)) ∧
    (∀ (s : GrClip R P F) (o1 o2 : SkIPoint),
      opEq ⟨none, o1⟩ ⟨some s, o2⟩ = .ok false ∧ opEq ⟨some s, o1⟩ ⟨none, o2⟩ = .ok false) := by
  constructor
  · unfold opEq
    by_cases ho : c1.fOrigin.opNe c2.fOrigin = false
    · have ho2 := (SkIPoint_opNe_eq_false_iff _ _).1 ho
      simp only [ho, Bool.false_eq_true, if_false]
      cases h1 : c1.fClipStack <;> cases h2 : c2.fClipStack <;> simp [ho2]
    · have ho2 : ¬ c1.fOrigin = c2.fOrigin := fun h => ho ((SkIPoint_opNe_eq_false_iff _ _).2 h)
      simp only [Bool.not_eq_false] at ho
      simp [ho, ho2]
  · intro s o1 o2
    unfold opEq
    constructor <;> split <;> rfl

end GrClipData

/-! ## Unrecognised element kinds -/

namespace GrClip

variable {R P F : Type}

/-- The only way `Element::operator==` stops is the crash. -/
theorem element_opEq_error [BEq R] [BEq P] (x y : Element R P F) (f : Fault)
    (h : x.opEq y = .error f) : f = .crash := by
  unfold Element.opEq at h
  split at h
  · cases h
  · split at h
    · cases h
    · cases h
    · cases h
      rfl

/-- When `Element::operator==` ends in the crash. -/
theorem element_opEq_crash_iff [BEq R] [BEq P] (x y : Element R P F) :
    x.opEq y = .error .crash ↔
      x.fType = y.fType ∧ x.fOp = y.fOp ∧ x.fDoAA = y.fDoAA ∧
        ∃ raw, x.fType = .unrecognised raw := by
  unfold Element.opEq
  by_cases ht : y.fType = x.fType
  · by_cases ho : y.fOp = x.fOp
    · by_cases hd : y.fDoAA = x.fDoAA
      · cases hx : x.fType <;> simp [ht, ho, hd, hx]
      · have hd2 : ¬ x.fDoAA = y.fDoAA := fun h => hd h.symm
        simp [ht, ho, hd, hd2]
    · have ho2 : ¬ x.fOp = y.fOp := fun h => ho h.symm
      simp [ht, ho, ho2]
  · have ht2 : ¬ x.fType = y.fType := fun h => ht h.symm
    simp [ht, ht2]

/-- The loop of `operator==` ends in the crash exactly when it reaches, past
pairs that compare equal, a pair whose comparison crashes. -/
theorem opEqLoop_crash_iff [BEq R] [BEq P] (a b : GrClip R P F) (todo i : Nat) :
    opEqLoop a b todo i = .error .crash ↔
      ∃ k, k < todo ∧
        (∀ j, i ≤ j → j < i + k →
          ∃ x y, a.fList[j]? = some x ∧ b.fList[j]? = some y ∧ x.opEq y = .ok true) ∧
        ∃ x y, a.fList[i + k]? = some x ∧ b.fList[i + k]? = some y ∧
          x.opEq y = .error .crash := by
  induction todo generalizing i with
  | zero => simp [opEqLoop]
  | succ n ih =>
    unfold opEqLoop elementAt
    constructor
    · intro h
      cases hx : a.fList[i]? with
      | none => simp [hx] at h
      | some x =>
        cases hy : b.fList[i]? with
        | none => simp [hx, hy] at h
        | some y =>
          simp only [hx, hy] at h
          cases he : x.opEq y with
          | error f =>
            have hf := element_opEq_error x y f he
            subst hf
            exact ⟨0, Nat.succ_pos n, fun j h1 h2 => by omega, x, y, hx, hy, he⟩
          | ok r =>
            cases r with
            | false => simp [Element.opNe, he] at h
            | true =>
              simp only [Element.opNe, he, Bool.not_true] at h
              obtain ⟨k, hk, hall, hcrash⟩ := (ih (i + 1)).1 h
              refine ⟨k + 1, by omega, fun j h1 h2 => ?_, ?_⟩
              · rcases Nat.eq_or_lt_of_le h1 with heq | hlt
                · subst heq
                  exact ⟨x, y, hx, hy, he⟩
                · exact hall j hlt (by omega)
              · have : i + (k + 1) = i + 1 + k := by omega
                rw [this]
                exact hcrash
    · rintro ⟨k, hk, hall, x, y, hx, hy, hcrash⟩
      cases k with
      | zero =>
        simp only [Nat.add_zero] at hx hy
        simp [hx, hy, Element.opNe, hcrash]
      | succ k =>
        obtain ⟨x0, y0, hx0, hy0, he0⟩ := hall i (Nat.le_refl i) (by omega)
        simp only [hx0, hy0, Element.opNe, he0, Bool.not_true]
        refine (ih (i + 1)).2 ⟨k, by omega, fun j h1 h2 => hall j (by omega) (by omega), x, y, ?_, ?_,
          hcrash⟩
        · have : i + 1 + k = i + (k + 1) := by omega
          rw [this]
          exact hx
        · have : i + 1 + k = i + (k + 1) := by omega
          rw [this]
          exact hy

/-- C11, counterexample: an element of unrecognised kind compared with a
rectangle element, in either order, returns false instead of crashing, and so
does `operator==` on the two one-element stacks that hold them. -/
theorem unrecognised_kind_returns_false :
    unknownElement.fType = .unrecognised 7 ∧
    unknownElement.opEq (rectElement rect100 .kIntersect_Op false) = .ok false ∧
    (rectElement rect100 .kIntersect_Op false).opEq unknownElement = .ok false ∧
    unknownStack.opEq rectStack = .ok false ∧
    rectStack.opEq unknownStack = .ok false :=
  ⟨rfl, rfl, rfl, rfl, rfl⟩

/-- C11, amended: `Element::operator==` ends in `GrCrash` exactly when the two
elements have the same kind, op and anti-alias flag and that kind is neither
Rectangle nor Path; when they differ in kind, op or flag it returns false,
whatever the kinds.  `operator==` on stacks ends in `GrCrash` exactly when the
counts are equal and, past pairs that compare equal, it reaches a pair whose
comparison crashes. -/
theorem crash_iff_same_unrecognised [BEq R] [BEq P] :
    (∀ x y : Element R P F,
      (x.opEq y = .error .crash ↔
        x.fType = y.fType ∧ x.fOp = y.fOp ∧ x.fDoAA = y.fDoAA ∧
          x.fType ≠ .kRect_ClipType ∧ x.fType ≠ .kPath_ClipType) ∧
      ((x.fType ≠ y.fType ∨ x.fOp ≠ y.fOp ∨ x.fDoAA ≠ y.fDoAA) → x.opEq y = .ok false)) ∧
    (∀ a b : GrClip R P F,
      a.opEq b = .error .crash ↔
        a.getElementCount = b.getElementCount ∧
          ∃ k, k < a.getElementCount ∧
            (∀ j, j < k →
              ∃ x y, a.fList[j]? = some x ∧ b.fList[j]? = some y ∧ x.opEq y = .ok true) ∧
            ∃ x y, a.fList[k]? = some x ∧ b.fList[k]? = some y ∧
              x.opEq y = .error .crash) := by
  refine ⟨fun x y => ⟨?_, ?_⟩, fun a b => ?_⟩
  · rw [element_opEq_crash_iff]
    constructor
    · rintro ⟨h1, h2, h3, raw, h4⟩
      exact ⟨h1, h2, h3, by simp [h4], by simp [h4]⟩
    · rintro ⟨h1, h2, h3, h4, h5⟩
      refine ⟨h1, h2, h3, ?_⟩
      cases hx : x.fType with
      | kRect_ClipType => exact absurd hx h4
      | kPath_ClipType => exact absurd hx h5
      | unrecognised raw => exact ⟨raw, rfl⟩
  · intro h
    unfold Element.opEq
    have : (y.fType != x.fType || y.fOp != x.fOp || y.fDoAA != x.fDoAA) = true := by
      rcases h with h | h | h
      · have h2 : ¬ y.fType = x.fType := fun e => h e.symm
        simp [h2]
      · have h2 : ¬ y.fOp = x.fOp := fun e => h e.symm
        simp [h2]
      · have h2 : ¬ y.fDoAA = x.fDoAA := fun e => h e.symm
        simp [h2]
    rw [if_pos this]
  · unfold opEq getElementCount
    by_cases hlen : a.fList.length = b.fList.length
    · simp only [hlen, bne_self_eq_false, Bool.false_eq_true, if_false, true_and]
      rw [← hlen, opEqLoop_crash_iff]
      simp only [Nat.zero_add, Nat.zero_le, true_implies]
    · simp [hlen]

end GrClip

/-! ## Construction from a rectangle, and the classification of equal stacks -/

namespace GrClip

variable {R P F : Type}

/-- C12: the stack constructed from a rectangle `rect` (one that compares equal
to itself) has exactly one element, a Rectangle with op Intersect and
anti-alias false, and `isRect` returns true on it, `getConservativeBounds`
returns `rect` and `requiresAA` returns false. -/
theorem setFromRect_single_rect [BEq R] (rect : R) (path : P) (fill : F)
    (hrefl : (rect == rect) = true) :
    (setFromRect rect path fill).getElementCount = 1 ∧
    (∃ e, (setFromRect rect path fill).fList = [e] ∧ e.fType = .kRect_ClipType ∧
      e.fRect = rect ∧ e.fOp = .kIntersect_Op ∧ e.fDoAA = false) ∧
    (setFromRect rect path fill).isRect = .ok true ∧
    (setFromRect rect path fill).getConservativeBounds
      = .ok (rect, setFromRect rect path fill) ∧
    (setFromRect rect path fill).requiresAA = false := by
  refine ⟨rfl, ⟨_, rfl, rfl, rfl, rfl, rfl⟩, ?_, rfl, rfl⟩
  simp [isRect, setFromRect, GrAssert, hrefl, bind, Except.bind, pure, Except.pure]

/-- Witness of C12 at the rectangle (0,0,100,100). -/
theorem setFromRect_single_rect_witness :
    (rect100 == rect100) = true ∧
    rectStack.isRect = .ok true ∧
    rectStack.getConservativeBounds = .ok (rect100, rectStack) ∧
    rectStack.requiresAA = false :=
  ⟨rfl, (setFromRect_single_rect rect100 [] 0 rfl).2.2.1,
    (setFromRect_single_rect rect100 [] 0 rfl).2.2.2⟩

/-- C15: on every clip stack with no elements `isWideOpen` is true and `isRect`
is false, and no stack has both `isWideOpen` and `isRect` true. -/
theorem wideOpen_not_rect [BEq R] (S : GrClip R P F) :
    (S.getElementCount = 0 → S.isWideOpen = true ∧ S.isRect = .ok false) ∧
    ¬ (S.isWideOpen = true ∧ S.isRect = .ok true) := by
  have key : S.getElementCount = 0 → S.isWideOpen = true ∧ S.isRect = .ok false := by
    intro h
    have hl : S.fList = [] := List.length_eq_zero.1 h
    unfold isWideOpen isRect
    rw [hl]
    exact ⟨rfl, rfl⟩
  refine ⟨key, ?_⟩
  rintro ⟨hw, hr⟩
  have h0 : S.getElementCount = 0 := by
    unfold isWideOpen at hw
    unfold getElementCount
    exact (beq_iff_eq.1 hw).symm
  rw [(key h0).2] at hr
  cases hr

/-- C16: `Element::operator==` ignores the path fill rule and the inactive
payload.  Two Path elements with the same op and anti-alias flag compare as
their paths do, whatever their `fPathFill` and `fRect` hold, so they compare
equal when the paths are equal; two Rectangle elements with the same op and flag
compare as their rectangles do, whatever their `fPath` and `fPathFill` hold. -/
theorem element_opEq_ignores_inactive [BEq R] [BEq P] (op : SkRegion.Op) (aa : Bool)
    (r1 r2 : R) (p1 p2 : P) (f1 f2 : F) :
    Element.opEq ⟨.kPath_ClipType, r1, p1, f1, op, aa⟩ ⟨.kPath_ClipType, r2, p2, f2, op, aa⟩
      = .ok (p1 == p2) ∧
    ((p1 == p2) = true →
      Element.opEq ⟨.kPath_ClipType, r1, p1, f1, op, aa⟩ ⟨.kPath_ClipType, r2, p2, f2, op, aa⟩
        = .ok true) ∧
    Element.opEq ⟨.kRect_ClipType, r1, p1, f1, op, aa⟩ ⟨.kRect_ClipType, r2, p2, f2, op, aa⟩
      = .ok (r1 == r2) ∧
    ((r1 == r2) = true →
      Element.opEq ⟨.kRect_ClipType, r1, p1, f1, op, aa⟩ ⟨.kRect_ClipType, r2, p2, f2, op, aa⟩
        = .ok true) := by
  have hp : Element.opEq (F := F) ⟨.kPath_ClipType, r1, p1, f1, op, aa⟩
      ⟨.kPath_ClipType, r2, p2, f2, op, aa⟩ = .ok (p1 == p2) := by
    simp [Element.opEq]
  have hr : Element.opEq (F := F) ⟨.kRect_ClipType, r1, p1, f1, op, aa⟩
      ⟨.kRect_ClipType, r2, p2, f2, op, aa⟩ = .ok (r1 == r2) := by
    simp [Element.opEq]
  exact ⟨hp, fun h => by rw [hp, h], hr, fun h => by rw [hr, h]⟩

/-- Equal stacks agree on the condition `isRect` tests. -/
theorem opEq_singleRectCondition [BEq R] [BEq P] (a b : GrClip R P F)
    (h : a.opEq b = .ok true) : a.singleRectCondition = b.singleRectCondition := by
  rw [opEq_ok_true_iff] at h
  obtain ⟨hlen, hall⟩ := h
  unfold singleRectCondition
  cases ha : a.fList with
  | nil =>
    rw [ha] at hlen
    have hb : b.fList = [] := List.length_eq_zero.1 hlen.symm
    rw [hb]
  | cons x l =>
    cases l with
    | nil =>
      rw [ha] at hlen hall
      cases hb : b.fList with
      | nil => simp [hb] at hlen
      | cons y m =>
        cases m with
        | cons y2 m2 => simp [hb] at hlen
        | nil =>
          obtain ⟨x0, y0, hx0, hy0, he⟩ := hall 0 (by simp)
          rw [hb] at hy0
          simp only [List.getElem?_cons_zero, Option.some.injEq] at hx0 hy0
          subst hx0
          subst hy0
          rw [element_opEq_ok_true_iff] at he
          simp only [he.1, he.2.1]
    | cons x2 l2 =>
      rw [ha] at hlen
      cases hb : b.fList with
      | nil => simp [hb] at hlen
      | cons y m =>
        cases m with
        | nil => simp [hb] at hlen
        | cons y2 m2 => rfl

/-- C17: stack equality is a congruence for the classification queries: when
`a == b`, `isWideOpen` returns the same on both, and the single-rectangle
condition tested by `isRect` (exactly one element, of type Rectangle, with op
Intersect or Replace) holds for `a` if and only if it holds for `b`. -/
theorem opEq_congr_classification [BEq R] [BEq P] (a b : GrClip R P F)
    (h : a.opEq b = .ok true) :
    a.isWideOpen = b.isWideOpen ∧
    ((∃ e, a.fList = [e] ∧ e.fType = .kRect_ClipType ∧
        (e.fOp = .kIntersect_Op ∨ e.fOp = .kReplace_Op)) ↔
      (∃ e, b.fList = [e] ∧ e.fType = .kRect_ClipType ∧
        (e.fOp = .kIntersect_Op ∨ e.fOp = .kReplace_Op))) := by
  constructor
  · unfold isWideOpen
    rw [((opEq_ok_true_iff a b).1 h).1]
  · rw [← singleRectCondition_iff, ← singleRectCondition_iff, opEq_singleRectCondition a b h]

/-- Witness of C17 at two stacks that hold the same path element with
different cached bounds. -/
theorem opEq_congr_classification_witness :
    pathStackSmall.opEq pathStackLarge = .ok true ∧
    (pathStackSmall.isWideOpen = pathStackLarge.isWideOpen ∧
    ((∃ e, pathStackSmall.fList = [e] ∧ e.fType = .kRect_ClipType ∧
        (e.fOp = .kIntersect_Op ∨ e.fOp = .kReplace_Op)) ↔
      (∃ e, pathStackLarge.fList = [e] ∧ e.fType = .kRect_ClipType ∧
        (e.fOp = .kIntersect_Op ∨ e.fOp = .kReplace_Op)))) :=
  ⟨rfl, opEq_congr_classification pathStackSmall pathStackLarge rfl⟩

end GrClip

/-! ## Clip data: equivalence, and the inequality operators -/

namespace GrClipData

variable {R P F : Type}

/-- Characterisation of `GrClipData::operator==` used by the results below. -/
theorem clipData_opEq_ok_true_iff [BEq R] [BEq P] (c1 c2 : GrClipData R P F) :
    c1.opEq c2 = .ok true ↔
      c1.fOrigin = c2.fOrigin ∧
        ((c1.fClipStack = none ∧ c2.fClipStack = none) ∨
          ∃ a b, c1.fClipStack = some a ∧ c2.fClipStack = some b ∧ a.opEq b = .ok true) := by
  unfold opEq
  by_cases ho : c1.fOrigin.opNe c2.fOrigin = false
  · have ho2 := (SkIPoint_opNe_eq_false_iff _ _).1 ho
    simp only [ho, Bool.false_eq_true, if_false]
    cases h1 : c1.fClipStack <;> cases h2 : c2.fClipStack <;> simp [ho2]
  · have ho2 : ¬ c1.fOrigin = c2.fOrigin := fun h => ho ((SkIPoint_opNe_eq_false_iff _ _).2 h)
    simp only [Bool.not_eq_false] at ho
    simp [ho, ho2]

/-- C18: `GrClipData::operator==` is an equivalence relation on clip contexts
whose stacks hold elements of recognised kinds, rectangle and path equality
being reflexive, symmetric and transitive: it is reflexive, also for a context
with a null stack, symmetric and transitive. -/
theorem clipData_opEq_equivalence [BEq R] [BEq P]
    (hRrefl : ∀ r : R, (r == r) = true)
    (hRsymm : ∀ r s : R, (r == s) = true → (s == r) = true)
    (hRtrans : ∀ r s t : R, (r == s) = true → (s == t) = true → (r == t) = true)
    (hPrefl : ∀ p : P, (p == p) = true)
    (hPsymm : ∀ p q : P, (p == q) = true → (q == p) = true)
    (hPtrans : ∀ p q u : P, (p == q) = true → (q == u) = true → (p == u) = true)
    (c1 c2 c3 : GrClipData R P F)
    (h1 : c1.allRecognised = true) (h2 : c2.allRecognised = true)
    (h3 : c3.allRecognised = true) :
    c1.opEq c1 = .ok true ∧
    (∀ o : SkIPoint, opEq (R := R) (P := P) (F := F) ⟨none, o⟩ ⟨none, o⟩ = .ok true) ∧
    (c1.opEq c2 = .ok true → c2.opEq c1 = .ok true) ∧
    (c1.opEq c2 = .ok true → c2.opEq c3 = .ok true → c1.opEq c3 = .ok true) := by
  have _ := h2
  have _ := h3
  refine ⟨?_, ?_, ?_, ?_⟩
  · rw [clipData_opEq_ok_true_iff]
    refine ⟨rfl, ?_⟩
    cases hs : c1.fClipStack with
    | none => exact Or.inl ⟨rfl, rfl⟩
    | some a =>
      unfold allRecognised at h1
      rw [hs] at h1
      exact Or.inr ⟨a, a, rfl, rfl, GrClip.opEq_refl hRrefl hPrefl a h1⟩
  · intro o
    rw [clipData_opEq_ok_true_iff]
    exact ⟨rfl, Or.inl ⟨rfl, rfl⟩⟩
  · intro h
    rw [clipData_opEq_ok_true_iff] at h ⊢
    obtain ⟨ho, hs⟩ := h
    refine ⟨ho.symm, ?_⟩
    rcases hs with ⟨ha, hb⟩ | ⟨a, b, ha, hb, hab⟩
    · exact Or.inl ⟨hb, ha⟩
    · exact Or.inr ⟨b, a, hb, ha, GrClip.opEq_symm hRsymm hPsymm a b hab⟩
  · intro h12 h23
    rw [clipData_opEq_ok_true_iff] at h12 h23 ⊢
    obtain ⟨ho, hs⟩ := h12
    obtain ⟨ho2, hs2⟩ := h23
    refine ⟨ho.trans ho2, ?_⟩
    rcases hs with ⟨ha, hb⟩ | ⟨a, b, ha, hb, hab⟩
    · rcases hs2 with ⟨hb2, hc⟩ | ⟨b2, c, hb2, hc, hbc⟩
      · exact Or.inl ⟨ha, hc⟩
      · rw [hb] at hb2
        cases hb2
    · rcases hs2 with ⟨hb2, hc⟩ | ⟨b2, c, hb2, hc, hbc⟩
      · rw [hb] at hb2
        cases hb2
      · rw [hb] at hb2
        cases hb2
        exact Or.inr ⟨a, c, ha, hc, GrClip.opEq_trans hRtrans hPtrans a b c hab hbc⟩

/-- Witness of C18 at a context with a null stack and two contexts whose
stacks hold the same path element with different cached bounds. -/
theorem clipData_opEq_equivalence_witness :
    smallClipData.allRecognised = true ∧ largeClipData.allRecognised = true ∧
    nullClipData.allRecognised = true ∧
    smallClipData.opEq largeClipData = .ok true ∧
    largeClipData.opEq nullClipData = .ok false ∧
    (smallClipData.opEq smallClipData = .ok true ∧
      (∀ o : SkIPoint,
        opEq (R := GrIRect) (P := List SkIPoint) (F := Nat) ⟨none, o⟩ ⟨none, o⟩ = .ok true) ∧
      (smallClipData.opEq largeClipData = .ok true →
        largeClipData.opEq smallClipData = .ok true) ∧
      (smallClipData.opEq largeClipData = .ok true →
        largeClipData.opEq nullClipData = .ok true →
        smallClipData.opEq nullClipData = .ok true)) :=
  ⟨rfl, rfl, rfl, rfl, rfl,
    clipData_opEq_equivalence (fun r => beq_self_eq_true r)
      (fun _ _ h => beq_iff_eq.2 (beq_iff_eq.1 h).symm)
      (fun _ _ _ h1 h2 => beq_iff_eq.2 ((beq_iff_eq.1 h1).trans (beq_iff_eq.1 h2)))
      (fun p => beq_self_eq_true p)
      (fun _ _ h => beq_iff_eq.2 (beq_iff_eq.1 h).symm)
      (fun _ _ _ h1 h2 => beq_iff_eq.2 ((beq_iff_eq.1 h1).trans (beq_iff_eq.1 h2)))
      smallClipData largeClipData nullClipData rfl rfl rfl⟩

/-- C19: each inequality operator is the exact Boolean negation of the matching
equality operator, on stacks, on elements and on clip contexts: where `==`
returns `r`, `!=` returns `!r`, and where `==` stops, `!=` stops the same way. -/
theorem opNe_eq_not_opEq [BEq R] [BEq P] :
    (∀ a b : GrClip R P F, a.opNe b = Except.map (fun r => !r) (a.opEq b)) ∧
    (∀ e1 e2 : GrClip.Element R P F, e1.opNe e2 = Except.map (fun r => !r) (e1.opEq e2)) ∧
    (∀ c1 c2 : GrClipData R P F, c1.opNe c2 = Except.map (fun r => !r) (c1.opEq c2)) := by
  refine ⟨fun a b => ?_, fun e1 e2 => ?_, fun c1 c2 => ?_⟩
  · unfold GrClip.opNe
    cases a.opEq b <;> rfl
  · unfold GrClip.Element.opNe
    cases e1.opEq e2 <;> rfl
  · unfold opNe
    cases c1.opEq c2 <;> rfl

end GrClipData

/-! ## The iterator's seek -/

namespace GrClip

variable {R P F : Type}

/-- The scan finds the element at index `j` when that is the first one, at or
above `i`, whose op matches. -/
theorem scanForOp_first (l : List (Element R P F)) (op : SkRegion.Op) (todo i j : Nat)
    (e : Element R P F) (hij : i ≤ j) (hj : j < i + todo) (he : l[j]? = some e)
    (hop : e.fOp = op)
    (hbelow : ∀ (k : Nat) (e2 : Element R P F), i ≤ k → k < j → l[k]? = some e2 → e2.fOp ≠ op) :
    Iter.scanForOp l op todo i = some (j, e) := by
  induction todo generalizing i with
  | zero => omega
  | succ n ih =>
    unfold Iter.scanForOp
    rcases Nat.eq_or_lt_of_le hij with heq | hlt
    · subst heq
      simp [he, hop]
    · have hlen : j < l.length := by
        rcases Nat.lt_or_ge j l.length with h | h
        · exact h
        · rw [List.getElem?_eq_none h] at he
          cases he
      have hi : l[i]? = some l[i] := List.getElem?_eq_getElem (by omega)
      have hne := hbelow i l[i] (Nat.le_refl i) hlt hi
      simp only [hi, hne, if_false]
      exact ih (i + 1) hlt (by omega) (fun k e2 h1 h2 => hbelow k e2 (by omega) h2)

/-- The scan finds nothing when no element at or above `i` has the op. -/
theorem scanForOp_none (l : List (Element R P F)) (op : SkRegion.Op) (todo i : Nat)
    (hall : ∀ (k : Nat) (e : Element R P F), i ≤ k → l[k]? = some e → e.fOp ≠ op) :
    Iter.scanForOp l op todo i = none := by
  induction todo generalizing i with
  | zero => rfl
  | succ n ih =>
    unfold Iter.scanForOp
    cases hi : l[i]? with
    | none => rfl
    | some e =>
      have hne := hall i e (Nat.le_refl i) hi
      simp only [hne, if_false]
      exact ih (i + 1) (fun k e2 h1 h2 => hall k e2 (by omega) h2)

/-- C13: on an iterator over the stack `S` with the cursor at `p`,
`skipToTopmost(op)` scans from the cursor toward the top: when `e`, at index
`j`, is the first element at or above the cursor whose op equals the argument,
the call puts the cursor on `j` and returns the view of `e`; when no element at
or above the cursor has that op, it returns the null sentinel and leaves the
cursor exhausted, past the top. -/
theorem skipToTopmost_first_match (S : GrClip R P F) (clip : Iter.Clip R P) (p : Int)
    (op : SkRegion.Op) :
    (∀ (j : Nat) (e : Element R P F), p ≤ j → S.fList[j]? = some e → e.fOp = op →
      (∀ (k : Nat) (e2 : Element R P F), p ≤ k → k < j → S.fList[k]? = some e2 → e2.fOp ≠ op) →
      Iter.skipToTopmost ⟨some S, clip, p⟩ op
        = .ok (some (Iter.viewOf e), ⟨some S, Iter.viewOf e, j⟩)) ∧
    ((∀ (j : Nat) (e : Element R P F), p ≤ j → S.fList[j]? = some e → e.fOp ≠ op) →
      Iter.skipToTopmost ⟨some S, clip, p⟩ op
        = .ok (none, ⟨some S, Iter.Clip.empty, S.getElementCount⟩)) := by
  constructor
  · intro j e hpj he hop hbelow
    have hlen : j < S.fList.length := by
      rcases Nat.lt_or_ge j S.fList.length with h | h
      · exact h
      · rw [List.getElem?_eq_none h] at he
        cases he
    have hstart : p.toNat ≤ j := Int.toNat_le.2 hpj
    have hscan := scanForOp_first S.fList op (S.getElementCount - p.toNat) p.toNat j e hstart
      (by unfold getElementCount; omega) he hop
      (fun k e2 h1 h2 h3 => hbelow k e2 (Int.toNat_le.1 h1) h2 h3)
    simp only [Iter.skipToTopmost, hscan]
  · intro hall
    have hscan := scanForOp_none S.fList op (S.getElementCount - p.toNat) p.toNat
      (fun k e h1 h2 => hall k e (Int.toNat_le.1 h1) h2)
    simp only [Iter.skipToTopmost, hscan]

/-- Scenario D of the spec: on the stack drained from a rectangle (op intersect)
and a path (op union), `skipToTopmost(Union)` from the bottom returns the path
element, and `skipToTopmost(Replace)` returns the null sentinel. -/
theorem skipToTopmost_from_bottom :
    Iter.skipToTopmost (Iter.reset mixedStack .kBottom_IterStart) .kUnion_Op
      = .ok (some ⟨none, some trianglePath, .kUnion_Op, true⟩,
          ⟨some mixedStack, ⟨none, some trianglePath, .kUnion_Op, true⟩, 1⟩) ∧
    Iter.skipToTopmost (Iter.reset mixedStack .kBottom_IterStart) .kReplace_Op
      = .ok (none, ⟨some mixedStack, Iter.Clip.empty, 2⟩) :=
  ⟨rfl, rfl⟩

end GrClip

